import Mathlib

/-!
Verification development for the instrumented cache facade in
`0x02-redis_basic/exercise.py`.

The Python module defines a `Cache` class backed by a Redis handle
(`self._redis`), two decorators (`count_calls`, `call_history`) stacked on
`Cache.store`, a `replay` inspector, and typed getters (`get`, `get_str`,
`get_int`).

The shallow embedding models:
- the Redis store as an association-list state (`RedisState`) with the
  primitives the code uses: `SET`/`GET` on string keys, `INCR`, `RPUSH`,
  `LRANGE 0 -1`, `EXISTS`, `FLUSHDB` (the fresh state);
- Python bytes/str values as Lean `String`s (a byte-for-byte rendering;
  `bytes.decode("utf-8")` is the identity in this model);
- Python exceptions as `Except PyErr`, threading the mutated store state
  alongside the result since a raised exception does not roll back prior
  Redis writes;
- the nondeterministic `str(uuid4())` key of `Cache.store` as an explicit
  `key` argument, and a possible transport-level failure of the inner
  `self._redis.set` call as an explicit `setFails` flag.
-/

set_option autoImplicit false

namespace RedisCache

/-! ### Decimal byte strings

Redis stores the call counter as the decimal byte string produced by
`INCR`, and the Python code re-reads it with `int(...)`.  We model the
decimal rendering (`natToString`) and Python's `int()` parse of an
unsigned decimal (`parseNat?`) and prove they round-trip.  Only
non-negative integers arise in this program (counters produced by `INCR`).
-/

/-- The character for a single decimal digit (0–9). -/
def digitChar (d : Nat) : Char := Char.ofNat (48 + d)

/-- Reads one character back as a decimal digit, if it is one. -/
def charDigit? (c : Char) : Option Nat :=
  if 48 ≤ c.toNat ∧ c.toNat ≤ 57 then some (c.toNat - 48) else none

/-- Little-endian base-10 digits, fuel-structured so that it reduces in
the kernel; `natDigits` below instantiates the fuel. -/
def digitsFuel : Nat → Nat → List Nat
  | 0, _ => []
  | _ + 1, 0 => []
  | fuel + 1, n + 1 => (n + 1) % 10 :: digitsFuel fuel ((n + 1) / 10)

/-- Little-endian base-10 digits of `n` (equal to `Nat.digits 10 n`). -/
def natDigits (n : Nat) : List Nat := digitsFuel n n

/-- Canonical decimal rendering of a natural number, as produced by
Redis `INCR` and by Python's `str()` on a non-negative `int`. -/
def natToString (n : Nat) : String :=
  if n = 0 then String.mk [digitChar 0]
  else String.mk (((natDigits n).map digitChar).reverse)

/-- One step of the decimal parse: accumulate a digit, failing on any
non-digit character. -/
def stepDigit (acc : Option Nat) (c : Char) : Option Nat :=
  match acc, charDigit? c with
  | some a, some d => some (10 * a + d)
  | _, _ => none

/-- Models Python `int()` applied to an unsigned decimal byte string:
succeeds exactly on non-empty all-digit strings (the only numeric shapes
this program produces), fails (`ValueError`) otherwise. -/
def parseNat? (s : String) : Option Nat :=
  if s.toList.isEmpty then none else s.toList.foldl stepDigit (some 0)

/-! ### The Redis store state

An association-list model of the slice of Redis this program uses.  String
values (`SET`/`GET`/`INCR`) and list values (`RPUSH`/`LRANGE`) live in
separate fields; the program's key families (one `SET` key per generated
UUID, the counter key `Cache.store`, the list keys `Cache.store:inputs`
and `Cache.store:outputs`) never share a key across the two families.
Updates shadow-prepend; `rget`/`listAt` (first match) are the observables.
-/

structure RedisState where
  kv : List (String × String)
  lists : List (String × List String)
deriving DecidableEq

/-- The state of a freshly constructed `Cache`: `__init__` runs
`self._redis.flushdb()`, so every key is absent. -/
def emptyState : RedisState := ⟨[], []⟩

/-- Redis `GET key`: the string value stored at `key`, or absent. -/
def rget (st : RedisState) (k : String) : Option String :=
  (st.kv.find? (fun p => p.1 == k)).map (fun p => p.2)

/-- Redis `SET key v`. -/
def rset (st : RedisState) (k v : String) : RedisState :=
  { st with kv := (k, v) :: st.kv }

/-- Redis `LRANGE key 0 -1`: the whole list at `key`, empty if absent. -/
def listAt (st : RedisState) (k : String) : List String :=
  ((st.lists.find? (fun p => p.1 == k)).map (fun p => p.2)).getD []

/-- Redis `RPUSH key v`: append `v` to the list at `key`, creating it if
absent. -/
def rpush (st : RedisState) (k v : String) : RedisState :=
  { st with lists := (k, listAt st k ++ [v]) :: st.lists }

/-- Redis `EXISTS key > 0`: whether `key` is present (as either a string
or a list key). -/
def existsKey (st : RedisState) (k : String) : Bool :=
  (st.kv.find? (fun p => p.1 == k)).isSome ||
    (st.lists.find? (fun p => p.1 == k)).isSome

/-- Redis `INCR key`: read the decimal value at `key` (absent reads as 0),
add one, store the decimal rendering back.  Real Redis errors on a
non-decimal existing value; such a state is unreachable in this program
(the counter key is written only by `INCR` itself), and the model reads a
non-decimal value as 0. -/
def incrState (st : RedisState) (k : String) : RedisState :=
  rset st k (natToString (((rget st k).bind parseNat?).getD 0 + 1))

/-! ### Python values, exceptions and renderings -/

/-- The Python exceptions this program can raise. -/
inductive PyErr where
  /-- a transport-level failure raised by a Redis write (`redis.ConnectionError` etc.) -/
  | storeFail
  /-- `ValueError`, e.g. `int()` of a non-numeric string -/
  | valueError
  /-- `TypeError`, e.g. `int(None)` -/
  | typeError
deriving DecidableEq

/-- The `DataType` union of `exercise.py` (`Union[str, bytes, int, float]`).
Bytes are modelled byte-for-byte as a Lean `String`; a float is carried by
its decimal rendering (`repr(v)` in Python), which is exactly the byte
encoding redis-py applies to floats, the only way a float is observed
here. -/
inductive PyData where
  | str (s : String)
  | bytes (b : String)
  | int (i : Int)
  | float (reprS : String)
deriving DecidableEq

/-- The single-quote character, used by Python `repr` of strings/bytes. -/
def sq : Char := Char.ofNat 39

/-- Python `str()`/`repr()` of a bytes object (for byte strings with no
quote, backslash or non-printable bytes — true of every value in this
development): `b` followed by the single-quoted content. -/
def pyBytesRepr (b : String) : String :=
  "b" ++ String.mk [sq] ++ b ++ String.mk [sq]

/-- Python `repr` of an `int`. -/
def intRepr (i : Int) : String :=
  if i < 0 then "-" ++ natToString i.natAbs else natToString i.natAbs

/-- Python `repr` of a `DataType` value (strings assumed free of quotes
and escapes, as in every value of this development). -/
def pyRepr : PyData → String
  | PyData.str s => String.mk [sq] ++ s ++ String.mk [sq]
  | PyData.bytes b => pyBytesRepr b
  | PyData.int i => intRepr i
  | PyData.float r => r

/-- Python `str(args)` where `args` is the 1-tuple of the single `data`
argument of `Cache.store` (the receiver is excluded): `(repr(data),)`. -/
def pyTupleRepr (d : PyData) : String :=
  "(" ++ pyRepr d ++ ",)"

/-- The byte encoding redis-py applies to a `DataType` value before
writing: strings/bytes pass through, `int` and `float` become their
decimal renderings. -/
def redisEncode : PyData → String
  | PyData.str s => s
  | PyData.bytes b => b
  | PyData.int i => intRepr i
  | PyData.float r => r

/-- Python `str()` applied to the result of a Redis `GET` (bytes, or
`None` when the key is absent). -/
def pyStrOf : Option String → String
  | none => "None"
  | some b => pyBytesRepr b

/-- Python `int()` applied to the result of a Redis `GET`: `TypeError` on
`None`, `ValueError` on non-numeric bytes, otherwise the parsed number
(only non-negative decimals arise in this program). -/
def pyIntOf : Option String → Except PyErr Nat
  | none => Except.error PyErr.typeError
  | some s =>
    match parseNat? s with
    | some n => Except.ok n
    | none => Except.error PyErr.valueError

instance instDecEqExcept {ε α : Type} [DecidableEq ε] [DecidableEq α] :
    DecidableEq (Except ε α) := fun x y =>
  match x, y with
  | Except.ok a, Except.ok b =>
    if h : a = b then Decidable.isTrue (congrArg Except.ok h)
    else Decidable.isFalse (fun hc => h (Except.ok.inj hc))
  | Except.error a, Except.error b =>
    if h : a = b then Decidable.isTrue (congrArg Except.error h)
    else Decidable.isFalse (fun hc => h (Except.error.inj hc))
  | Except.ok _, Except.error _ => Decidable.isFalse (fun hc => Except.noConfusion hc)
  | Except.error _, Except.ok _ => Decidable.isFalse (fun hc => Except.noConfusion hc)

/-! ### The instrumented `Cache.store` and the getters

`Cache.store` is decorated `@count_calls` over `@call_history`; each
wrapper checks `isinstance(self._redis, redis.Redis)`, modelled by the
`redisOk` flag.  A raised exception carries the store state mutated so
far (Redis writes are not rolled back), hence the `Except × RedisState`
result shape.
-/

/-- `method.__qualname__` for the only instrumented method. -/
def storeQualname : String := "Cache.store"

/-- The inputs-history list key for an operation identity (`in_key`). -/
def inputsKeyOf (name : String) : String := name ++ ":inputs"

/-- The outputs-history list key for an operation identity (`out_key`). -/
def outputsKeyOf (name : String) : String := name ++ ":outputs"

/-- The undecorated body of `Cache.store` (lines 74–78): generates a key
(`str(uuid4())`, modelled by the explicit `key` argument), writes `data`
under it, returns the key.  `setFails` injects a transport-level failure
of the `self._redis.set` call, which raises before any write. -/
def storeMethod (st : RedisState) (key : String) (data : PyData)
    (setFails : Bool) : Except PyErr String × RedisState :=
  if setFails then (Except.error PyErr.storeFail, st)
  else (Except.ok key, rset st key (redisEncode data))

/-- `call_history`'s wrapper applied to `Cache.store` (lines 28–39): with
a valid store, push `str(args)` onto the inputs list, run the method
(propagating its exception, with the input already recorded), push the
output onto the outputs list and return it; with an invalid store, return
`None` without touching anything. -/
def call_history_store (redisOk : Bool) (st : RedisState) (key : String)
    (data : PyData) (setFails : Bool) :
    Except PyErr (Option String) × RedisState :=
  if redisOk then
    let st1 := rpush st (inputsKeyOf storeQualname) (pyTupleRepr data)
    match storeMethod st1 key data setFails with
    | (Except.ok out, st2) =>
      (Except.ok (some out), rpush st2 (outputsKeyOf storeQualname) out)
    | (Except.error e, st2) => (Except.error e, st2)
  else (Except.ok none, st)

/-- `count_calls`'s wrapper (lines 13–19), the outer decorator: with a
valid store, `INCR` the counter keyed by the qualname, then delegate to
the `call_history`-wrapped method.  This is the fully decorated
`Cache.store`. -/
def count_calls_store (redisOk : Bool) (st : RedisState) (key : String)
    (data : PyData) (setFails : Bool) :
    Except PyErr (Option String) × RedisState :=
  let st1 := if redisOk then incrState st storeQualname else st
  call_history_store redisOk st1 key data setFails

/-- `Cache.get(key)` with the default `method=None` (lines 80–85): the
raw bytes at `key`, or the `None` sentinel when absent. -/
def cacheGet (st : RedisState) (key : String) : Option String :=
  rget st key

/-- `Cache.get(key, method)` with a decoder supplied: the decoder is
applied to the raw `GET` result, including the absent-key sentinel. -/
def cacheGetWith {α : Type} (st : RedisState) (key : String)
    (method : Option String → Except PyErr α) : Except PyErr α :=
  method (rget st key)

/-- `Cache.get_str(key)` (lines 87–89): `self.get(key, str)`. -/
def cacheGetStr (st : RedisState) (key : String) : Except PyErr String :=
  cacheGetWith st key (fun d => Except.ok (pyStrOf d))

/-- `Cache.get_int(key)` (lines 91–93): `self.get(key, int)`. -/
def cacheGetInt (st : RedisState) (key : String) : Except PyErr Nat :=
  cacheGetWith st key pyIntOf

/-- The effective call counter read of a state: the decimal value at the
`Cache.store` key, an absent key (or non-decimal value) reading as 0. -/
def counterNat (st : RedisState) : Nat :=
  ((rget st storeQualname).bind parseNat?).getD 0

/-- Runs a sequence of invocations of the decorated `Cache.store` on a
valid cache, each invocation given by (generated key, data, whether the
inner `SET` fails), collecting each invocation's outcome and threading
the store state. -/
def runCalls (st : RedisState) :
    List (String × PyData × Bool) →
      List (Except PyErr (Option String)) × RedisState
  | [] => ([], st)
  | c :: rest =>
    let r := count_calls_store true st c.1 c.2.1 c.2.2
    let rr := runCalls r.2 rest
    (r.1 :: rr.1, rr.2)

/-! ### The replay inspector -/

/-- A receiver object as `replay` sees it: `method.__self__` together
with the validity of its `_redis` attribute (`redisOk = false` covers
both a missing `_redis` attribute — `getattr` returning `None` — and a
`_redis` that is not a `redis.Redis` instance). -/
structure CacheObj where
  redisOk : Bool
  st : RedisState
deriving DecidableEq

/-- A possibly-bound method reference passed to `replay`: a plain
function has no `__self__`; a bound method carries its receiver.  The
`none` case of `Option MethodRef` models `replay(None)`. -/
inductive MethodRef where
  | plainFn (qualname : String)
  | bound (qualname : String) (receiver : CacheObj)
deriving DecidableEq

/-- `replay` (lines 44–60), returning the list of printed lines.  A raised
exception (`Except.error`) can arise only past the guards, from `int()`
of a non-decimal counter value — unreachable for counters produced by
`INCR`. -/
def replay : Option MethodRef → Except PyErr (List String)
  | none => Except.ok []
  | some (MethodRef.plainFn _) => Except.ok []
  | some (MethodRef.bound name c) =>
    if c.redisOk then
      match (if existsKey c.st name then pyIntOf (rget c.st name)
             else Except.ok 0) with
      | Except.error e => Except.error e
      | Except.ok count =>
        if count = 0 then Except.ok []
        else
          Except.ok
            ((name ++ " was called " ++ natToString count ++ " times:") ::
              ((listAt c.st (inputsKeyOf name)).zip
                  (listAt c.st (outputsKeyOf name))).map
                (fun p => name ++ "(*" ++ p.1 ++ ") -> " ++ p.2))
    else Except.ok []

/-- Guard of `replay` (lines 47–50): the argument is a bound method whose
receiver's `_redis` handle is a valid `redis.Redis` instance. -/
def replayTargetValid : Option MethodRef → Bool
  | some (MethodRef.bound _ c) => c.redisOk
  | _ => false

/-! ### Event traces for the ordering claim

`count_calls_storeT`/`call_history_storeT` are the two wrappers
instrumented to also emit the sequence of store side effects they
perform, in order; they agree with the plain wrappers on result and
state (proved in claim C9's theorem). -/

inductive StoreEvent where
  | incrCounter (key : String)
  | recordInput (key : String) (v : String)
  | execStore (key : String) (ok : Bool)
  | recordOutput (key : String) (v : String)
deriving DecidableEq

/-- `call_history`'s wrapper with its event trace. -/
def call_history_storeT (redisOk : Bool) (st : RedisState) (key : String)
    (data : PyData) (setFails : Bool) :
    (Except PyErr (Option String) × RedisState) × List StoreEvent :=
  if redisOk then
    let st1 := rpush st (inputsKeyOf storeQualname) (pyTupleRepr data)
    match storeMethod st1 key data setFails with
    | (Except.ok out, st2) =>
      ((Except.ok (some out), rpush st2 (outputsKeyOf storeQualname) out),
        [StoreEvent.recordInput (inputsKeyOf storeQualname) (pyTupleRepr data),
          StoreEvent.execStore key true,
          StoreEvent.recordOutput (outputsKeyOf storeQualname) out])
    | (Except.error e, st2) =>
      ((Except.error e, st2),
        [StoreEvent.recordInput (inputsKeyOf storeQualname) (pyTupleRepr data),
          StoreEvent.execStore key false])
  else ((Except.ok none, st), [])

/-- `count_calls`'s wrapper (the outer decorator) with its event trace. -/
def count_calls_storeT (redisOk : Bool) (st : RedisState) (key : String)
    (data : PyData) (setFails : Bool) :
    (Except PyErr (Option String) × RedisState) × List StoreEvent :=
  let st1 := if redisOk then incrState st storeQualname else st
  let r := call_history_storeT redisOk st1 key data setFails
  (r.1,
    (if redisOk then [StoreEvent.incrCounter storeQualname] else []) ++ r.2)

theorem digitsFuel_eq_digits (fuel : Nat) :
    ∀ n : Nat, n ≤ fuel → digitsFuel fuel n = Nat.digits 10 n := by
  induction fuel with
  | zero =>
    intro n hn
    interval_cases n
    simp [digitsFuel]
  | succ fuel ih =>
    intro n hn
    cases n with
    | zero => simp [digitsFuel]
    | succ m =>
      rw [show digitsFuel (fuel + 1) (m + 1) =
          (m + 1) % 10 :: digitsFuel fuel ((m + 1) / 10) from rfl]
      rw [ih ((m + 1) / 10) (by omega)]
      rw [Nat.digits_def' (by norm_num : (1 : ℕ) < 10) (Nat.succ_pos m)]

theorem natDigits_eq_digits (n : Nat) : natDigits n = Nat.digits 10 n :=
  digitsFuel_eq_digits n n le_rfl

theorem charDigit_digitChar (d : Nat) (h : d < 10) :
    charDigit? (digitChar d) = some d := by
  interval_cases d <;> decide

theorem foldr_digits_eq (L : List Nat) (h : ∀ d ∈ L, d < 10) :
    L.foldr (fun d a => stepDigit a (digitChar d)) (some 0) =
      some (Nat.ofDigits 10 L) := by
  induction L with
  | nil => simp [Nat.ofDigits]
  | cons d tl ih =>
    have hd : d < 10 := h d (List.mem_cons_self d tl)
    have htl : ∀ x ∈ tl, x < 10 := fun x hx => h x (List.mem_cons_of_mem d hx)
    rw [List.foldr_cons, ih htl]
    simp only [stepDigit, charDigit_digitChar d hd, Nat.ofDigits_cons,
      Option.some.injEq]
    omega

theorem parseNat_natToString (n : Nat) : parseNat? (natToString n) = some n := by
  by_cases h : n = 0
  · subst h; decide
  · have hne : Nat.digits 10 n ≠ [] := by
      simpa [Nat.digits_ne_nil_iff_ne_zero] using h
    have hlt : ∀ d ∈ Nat.digits 10 n, d < 10 := fun d hd =>
      Nat.digits_lt_base (by norm_num) hd
    unfold parseNat? natToString
    rw [if_neg h, natDigits_eq_digits]
    have htl : (String.mk (((Nat.digits 10 n).map digitChar).reverse)).toList =
        ((Nat.digits 10 n).map digitChar).reverse := rfl
    rw [htl]
    have hemp : (((Nat.digits 10 n).map digitChar).reverse).isEmpty = false := by
      simp [List.isEmpty_iff, hne]
    rw [if_neg (by simp [hemp])]
    rw [List.foldl_reverse, List.foldr_map]
    rw [foldr_digits_eq _ hlt, Nat.ofDigits_digits]

theorem rget_rset_self (st : RedisState) (k v : String) :
    rget (rset st k v) k = some v := by
  unfold rget rset
  rw [List.find?_cons_of_pos _ (by simp)]
  rfl

theorem rget_rset_ne (st : RedisState) (k v k' : String) (h : k' ≠ k) :
    rget (rset st k v) k' = rget st k' := by
  unfold rget rset
  rw [List.find?_cons_of_neg]
  simp only [beq_iff_eq]
  exact Ne.symm h

theorem rget_rpush (st : RedisState) (k v k' : String) :
    rget (rpush st k v) k' = rget st k' := rfl

theorem listAt_rset (st : RedisState) (k v : String) (k' : String) :
    listAt (rset st k v) k' = listAt st k' := rfl

theorem listAt_rpush_self (st : RedisState) (k v : String) :
    listAt (rpush st k v) k = listAt st k ++ [v] := by
  unfold listAt rpush
  rw [List.find?_cons_of_pos _ (by simp)]
  rfl

theorem listAt_rpush_ne (st : RedisState) (k v k' : String) (h : k' ≠ k) :
    listAt (rpush st k v) k' = listAt st k' := by
  unfold listAt rpush
  rw [List.find?_cons_of_neg]
  simp only [beq_iff_eq]
  exact Ne.symm h

theorem existsKey_of_rget_some (st : RedisState) (k : String) (v : String)
    (h : rget st k = some v) : existsKey st k = true := by
  unfold rget at h
  unfold existsKey
  cases hf : st.kv.find? (fun p => p.1 == k) with
  | none => rw [hf] at h; simp at h
  | some p => simp [hf]

/-! ### Normal forms and step lemmas for one decorated invocation -/

theorem count_calls_store_eq_fail (st : RedisState) (k : String) (v : PyData) :
    count_calls_store true st k v true =
      (Except.error PyErr.storeFail,
        rpush (incrState st storeQualname) (inputsKeyOf storeQualname)
          (pyTupleRepr v)) := by
  simp [count_calls_store, call_history_store, storeMethod]

theorem count_calls_store_eq_ok (st : RedisState) (k : String) (v : PyData) :
    count_calls_store true st k v false =
      (Except.ok (some k),
        rpush
          (rset (rpush (incrState st storeQualname) (inputsKeyOf storeQualname)
              (pyTupleRepr v))
            k (redisEncode v))
          (outputsKeyOf storeQualname) k) := by
  simp [count_calls_store, call_history_store, storeMethod]

theorem count_calls_store_invalid (st : RedisState) (k : String) (v : PyData)
    (f : Bool) : count_calls_store false st k v f = (Except.ok none, st) := by
  simp [count_calls_store, call_history_store]

theorem call_history_store_invalid (st : RedisState) (k : String) (v : PyData)
    (f : Bool) : call_history_store false st k v f = (Except.ok none, st) := by
  simp [call_history_store]

theorem inputsKey_ne_outputsKey :
    inputsKeyOf storeQualname ≠ outputsKeyOf storeQualname := by
  decide

theorem rget_incr_counter (st : RedisState) :
    rget (incrState st storeQualname) storeQualname =
      some (natToString (counterNat st + 1)) := by
  unfold incrState counterNat
  exact rget_rset_self _ _ _

theorem step_result (st : RedisState) (k : String) (v : PyData) (f : Bool) :
    (count_calls_store true st k v f).1 =
      if f then Except.error PyErr.storeFail else Except.ok (some k) := by
  cases f
  · rw [count_calls_store_eq_ok]; rfl
  · rw [count_calls_store_eq_fail]; rfl

theorem step_inputs (st : RedisState) (k : String) (v : PyData) (f : Bool) :
    listAt (count_calls_store true st k v f).2 (inputsKeyOf storeQualname) =
      listAt st (inputsKeyOf storeQualname) ++ [pyTupleRepr v] := by
  cases f
  · rw [count_calls_store_eq_ok]
    rw [listAt_rpush_ne _ _ _ _ inputsKey_ne_outputsKey, listAt_rset,
      listAt_rpush_self]
    rfl
  · rw [count_calls_store_eq_fail]
    rw [listAt_rpush_self]
    rfl

theorem step_outputs (st : RedisState) (k : String) (v : PyData) (f : Bool) :
    listAt (count_calls_store true st k v f).2 (outputsKeyOf storeQualname) =
      listAt st (outputsKeyOf storeQualname) ++ (if f then [] else [k]) := by
  cases f
  · rw [count_calls_store_eq_ok]
    rw [listAt_rpush_self, listAt_rset,
      listAt_rpush_ne _ _ _ _ (Ne.symm inputsKey_ne_outputsKey)]
    rfl
  · rw [count_calls_store_eq_fail]
    rw [listAt_rpush_ne _ _ _ _ (Ne.symm inputsKey_ne_outputsKey)]
    simp
    rfl

theorem step_rget_counter (st : RedisState) (k : String) (v : PyData) (f : Bool)
    (hk : k ≠ storeQualname) :
    rget (count_calls_store true st k v f).2 storeQualname =
      some (natToString (counterNat st + 1)) := by
  cases f
  · rw [count_calls_store_eq_ok]
    rw [rget_rpush, rget_rset_ne _ _ _ _ (Ne.symm hk), rget_rpush,
      rget_incr_counter]
  · rw [count_calls_store_eq_fail]
    rw [rget_rpush, rget_incr_counter]

theorem step_counterNat (st : RedisState) (k : String) (v : PyData) (f : Bool)
    (hk : k ≠ storeQualname) :
    counterNat (count_calls_store true st k v f).2 = counterNat st + 1 := by
  unfold counterNat
  rw [step_rget_counter st k v f hk]
  simp [parseNat_natToString]
  rfl

theorem step_rget_data (st : RedisState) (k : String) (v : PyData) :
    rget (count_calls_store true st k v false).2 k = some (redisEncode v) := by
  rw [count_calls_store_eq_ok]
  rw [rget_rpush, rget_rset_self]

/-! ### Run lemmas: a sequence of decorated invocations -/

theorem runCalls_results (st : RedisState) (calls : List (String × PyData × Bool)) :
    (runCalls st calls).1 =
      calls.map (fun c =>
        if c.2.2 then Except.error PyErr.storeFail else Except.ok (some c.1)) := by
  induction calls generalizing st with
  | nil => rfl
  | cons c rest ih =>
    show (count_calls_store true st c.1 c.2.1 c.2.2).1 :: _ = _
    rw [List.map_cons, step_result, ih]

theorem runCalls_inputs (st : RedisState) (calls : List (String × PyData × Bool)) :
    listAt (runCalls st calls).2 (inputsKeyOf storeQualname) =
      listAt st (inputsKeyOf storeQualname) ++
        calls.map (fun c => pyTupleRepr c.2.1) := by
  induction calls generalizing st with
  | nil => simp [runCalls]
  | cons c rest ih =>
    show listAt (runCalls (count_calls_store true st c.1 c.2.1 c.2.2).2 rest).2 _ = _
    rw [ih, step_inputs]
    simp

theorem runCalls_outputs (st : RedisState) (calls : List (String × PyData × Bool)) :
    listAt (runCalls st calls).2 (outputsKeyOf storeQualname) =
      listAt st (outputsKeyOf storeQualname) ++
        (calls.filter (fun c => !c.2.2)).map (fun c => c.1) := by
  induction calls generalizing st with
  | nil => simp [runCalls]
  | cons c rest ih =>
    show listAt (runCalls (count_calls_store true st c.1 c.2.1 c.2.2).2 rest).2 _ = _
    rw [ih, step_outputs]
    cases hf : c.2.2 with
    | true => simp [List.filter_cons, hf]
    | false => simp [List.filter_cons, hf]

theorem runCalls_counterNat (st : RedisState)
    (calls : List (String × PyData × Bool))
    (hk : ∀ c ∈ calls, c.1 ≠ storeQualname) :
    counterNat (runCalls st calls).2 = counterNat st + calls.length := by
  induction calls generalizing st with
  | nil => rfl
  | cons c rest ih =>
    show counterNat (runCalls (count_calls_store true st c.1 c.2.1 c.2.2).2 rest).2 = _
    rw [ih _ (fun x hx => hk x (List.mem_cons_of_mem c hx)),
      step_counterNat _ _ _ _ (hk c (List.mem_cons_self c rest))]
    simp [List.length_cons]
    omega

theorem runCalls_rget_counter (st : RedisState)
    (calls : List (String × PyData × Bool))
    (hk : ∀ c ∈ calls, c.1 ≠ storeQualname) (hne : calls ≠ []) :
    rget (runCalls st calls).2 storeQualname =
      some (natToString (counterNat st + calls.length)) := by
  induction calls generalizing st with
  | nil => exact absurd rfl hne
  | cons c rest ih =>
    show rget (runCalls (count_calls_store true st c.1 c.2.1 c.2.2).2 rest).2 _ = _
    by_cases hr : rest = []
    · subst hr
      show rget (count_calls_store true st c.1 c.2.1 c.2.2).2 _ = _
      rw [step_rget_counter _ _ _ _ (hk c (List.mem_cons_self c []))]
      rfl
    · rw [ih _ (fun x hx => hk x (List.mem_cons_of_mem c hx)) hr,
        step_counterNat _ _ _ _ (hk c (List.mem_cons_self c rest))]
      have : counterNat st + 1 + rest.length = counterNat st + (c :: rest).length := by
        simp [List.length_cons]; omega
      rw [this]

/-! ### Replay helper lemmas -/

theorem pyIntOf_natToString (k : Nat) :
    pyIntOf (some (natToString k)) = Except.ok k := by
  show (match parseNat? (natToString k) with
    | some n => Except.ok n
    | none => Except.error PyErr.valueError) = Except.ok k
  rw [parseNat_natToString]

theorem replay_bound_valid (name : String) (st : RedisState) (k : Nat)
    (hget : rget st name = some (natToString k)) (hk : k ≠ 0) :
    replay (some (MethodRef.bound name ⟨true, st⟩)) =
      Except.ok ((name ++ " was called " ++ natToString k ++ " times:") ::
        ((listAt st (inputsKeyOf name)).zip (listAt st (outputsKeyOf name))).map
          (fun p => name ++ "(*" ++ p.1 ++ ") -> " ++ p.2)) := by
  have hex : existsKey st name = true := existsKey_of_rget_some st name _ hget
  have hpy : pyIntOf (rget st name) = Except.ok k := by
    rw [hget, pyIntOf_natToString]
  unfold replay
  simp only [hex, if_true, hpy, hk, if_false]

theorem zip_append_left {α β : Type} (A B : List α) (C : List β)
    (h : A.length = C.length) : (A ++ B).zip C = A.zip C := by
  induction A generalizing C with
  | nil =>
    cases C with
    | nil => simp
    | cons c C => simp at h
  | cons a A ih =>
    cases C with
    | nil => simp at h
    | cons c C =>
      simp only [List.cons_append, List.zip_cons_cons]
      rw [ih C (by simpa using h)]

theorem filter_success_map_false (calls : List (String × PyData)) :
    ((calls.map (fun c => (c.1, c.2, false))).filter (fun c => !c.2.2)) =
      calls.map (fun c => (c.1, c.2, false)) := by
  rw [List.filter_eq_self]
  intro a ha
  rcases List.mem_map.mp ha with ⟨c, _, rfl⟩
  rfl

/-! ### The claims -/

/-- Claim C2: after any `n` consecutive invocations of the instrumented
`Cache.store` on a fresh cache with a valid store handle — each
invocation given by its generated UUID key (always distinct from the
counter key `"Cache.store"`, as `str(uuid4())` is), its data, and whether
its inner `SET` raised a store failure — the call counter for
`Cache.store` equals exactly `n`: the counter counts attempts, because
the increment happens before the wrapped call, regardless of a later
failure. -/
theorem C2_counter_equals_attempts (calls : List (String × PyData × Bool))
    (hk : ∀ c ∈ calls, c.1 ≠ storeQualname) :
    counterNat (runCalls emptyState calls).2 = calls.length := by
  rw [runCalls_counterNat emptyState calls hk]
  show 0 + calls.length = calls.length
  omega

theorem C2_witness :
    (∀ c ∈ [("a", PyData.int 1, false), ("b", PyData.int 2, true)],
        c.1 ≠ storeQualname) ∧
      counterNat (runCalls emptyState
        [("a", PyData.int 1, false), ("b", PyData.int 2, true)]).2 = 2 :=
  ⟨by decide,
    C2_counter_equals_attempts
      [("a", PyData.int 1, false), ("b", PyData.int 2, true)] (by decide)⟩

/-- Claim C3: after `n` successful invocations of the instrumented
`Cache.store` on a fresh cache (i-th invocation generating key `kᵢ` with
data `dᵢ`, no store failures), every invocation returns its generated
key, the inputs and outputs history lists both have length `n`, and the
outputs list is exactly the list of generated keys in invocation
order. -/
theorem C3_history_records_calls (calls : List (String × PyData)) :
    (runCalls emptyState (calls.map (fun c => (c.1, c.2, false)))).1 =
        calls.map (fun c => Except.ok (some c.1)) ∧
      (listAt (runCalls emptyState (calls.map (fun c => (c.1, c.2, false)))).2
          (inputsKeyOf storeQualname)).length = calls.length ∧
      (listAt (runCalls emptyState (calls.map (fun c => (c.1, c.2, false)))).2
          (outputsKeyOf storeQualname)).length = calls.length ∧
      listAt (runCalls emptyState (calls.map (fun c => (c.1, c.2, false)))).2
          (outputsKeyOf storeQualname) = calls.map (fun c => c.1) := by
  have houts :
      listAt (runCalls emptyState (calls.map (fun c => (c.1, c.2, false)))).2
        (outputsKeyOf storeQualname) = calls.map (fun c => c.1) := by
    rw [runCalls_outputs, filter_success_map_false]
    simp [listAt, emptyState, List.map_map, Function.comp]
  refine ⟨?_, ?_, ?_, houts⟩
  · rw [runCalls_results]
    simp [List.map_map, Function.comp]
  · rw [runCalls_inputs]
    simp [listAt, emptyState]
  · rw [houts]
    simp

/-- Claim C4: for every supported scalar value `v`, from any store state,
a successful instrumented `store(v)` returns its generated key and an
immediate `get` of that key returns exactly the store's byte encoding of
`v` (round-trip identity modulo the byte encoding). -/
theorem C4_store_get_roundtrip (st : RedisState) (key : String) (v : PyData) :
    (count_calls_store true st key v false).1 = Except.ok (some key) ∧
      cacheGet (count_calls_store true st key v false).2 key =
        some (redisEncode v) := by
  refine ⟨?_, step_rget_data st key v⟩
  rw [step_result]
  rfl

/-- Claim C6: calling `replay` with a null reference, with a plain
(unbound) function, or with a bound method whose receiver lacks a valid
connected store, is a silent no-op: no output, no exception. -/
theorem C6_replay_invalid_silent (m : Option MethodRef)
    (h : replayTargetValid m = false) : replay m = Except.ok [] := by
  cases m with
  | none => rfl
  | some mr =>
    cases mr with
    | plainFn q => rfl
    | bound name c =>
      have hc : c.redisOk = false := h
      simp [replay, hc]

theorem C6_witness :
    replayTargetValid none = false ∧ replay none = Except.ok [] :=
  ⟨rfl, C6_replay_invalid_silent none rfl⟩

/-- Claim C7: `replay` on a bound method with a valid store prints
nothing when the operation's counter key does not exist in the store, or
when the recorded count is zero (the value `"0"`). -/
theorem C7_replay_zero_count_silent (name : String) (st : RedisState)
    (h : existsKey st name = false ∨ rget st name = some (natToString 0)) :
    replay (some (MethodRef.bound name ⟨true, st⟩)) = Except.ok [] := by
  unfold replay
  cases h with
  | inl hex => simp [hex]
  | inr hv =>
    have hex : existsKey st name = true := existsKey_of_rget_some st name _ hv
    simp [hex, hv, pyIntOf_natToString]

theorem C7_witness :
    (existsKey emptyState storeQualname = false ∨
        rget emptyState storeQualname = some (natToString 0)) ∧
      replay (some (MethodRef.bound storeQualname ⟨true, emptyState⟩)) =
        Except.ok [] :=
  ⟨Or.inl rfl,
    C7_replay_zero_count_silent storeQualname emptyState (Or.inl rfl)⟩

/-- Claim C8: when the receiver's store handle is not a valid connected
store, the call-history wrapper returns the defined no-op value `None`
without invoking the wrapped operation (even an injected store failure
cannot surface), and the outer call-counting wrapper performs no counter
increment: the whole invocation leaves the store state untouched. -/
theorem C8_invalid_store_noop (st : RedisState) (key : String) (v : PyData)
    (f : Bool) :
    count_calls_store false st key v f = (Except.ok none, st) ∧
      call_history_store false st key v f = (Except.ok none, st) :=
  ⟨count_calls_store_invalid st key v f, call_history_store_invalid st key v f⟩

/-- Claim C10: for a key absent from the store, `get` with no decoder
returns the `None` sentinel; but a supplied decoder is applied to the
sentinel instead of bypassing it, so `get_str` returns the display
string `"None"` of the sentinel rather than the sentinel itself, and
`get_int` raises (`int(None)` is a `TypeError`) rather than returning
the sentinel. -/
theorem C10_absent_key_decoders (st : RedisState) (key : String)
    (h : rget st key = none) :
    cacheGet st key = none ∧
      cacheGetStr st key = Except.ok "None" ∧
      cacheGetInt st key = Except.error PyErr.typeError := by
  refine ⟨h, ?_, ?_⟩
  · unfold cacheGetStr cacheGetWith
    rw [h]
    rfl
  · unfold cacheGetInt cacheGetWith
    rw [h]
    rfl

theorem C10_witness :
    rget emptyState "k" = none ∧
      (cacheGet emptyState "k" = none ∧
        cacheGetStr emptyState "k" = Except.ok "None" ∧
        cacheGetInt emptyState "k" = Except.error PyErr.typeError) :=
  ⟨rfl, C10_absent_key_decoders emptyState "k" rfl⟩

/-- Claim C9: in a single invocation of the doubly-decorated store, the
side effects happen in the strict order counter-increment, then
input-recording, then the wrapped operation, then output-recording (the
last only on success); with an invalid store handle nothing at all
happens, so history recording is reached only through the
counter-increment path; the counter is incremented exactly once; and the
traced wrappers agree with the plain embedding on result and state. -/
theorem C9_effect_order (st : RedisState) (key : String) (v : PyData)
    (f ok : Bool) :
    (count_calls_storeT true st key v false).2 =
        [StoreEvent.incrCounter storeQualname,
          StoreEvent.recordInput (inputsKeyOf storeQualname) (pyTupleRepr v),
          StoreEvent.execStore key true,
          StoreEvent.recordOutput (outputsKeyOf storeQualname) key] ∧
      (count_calls_storeT true st key v true).2 =
        [StoreEvent.incrCounter storeQualname,
          StoreEvent.recordInput (inputsKeyOf storeQualname) (pyTupleRepr v),
          StoreEvent.execStore key false] ∧
      (count_calls_storeT false st key v f).2 = [] ∧
      (count_calls_storeT true st key v f).2.count
          (StoreEvent.incrCounter storeQualname) = 1 ∧
      (count_calls_storeT ok st key v f).1 = count_calls_store ok st key v f := by
  refine ⟨?_, ?_, ?_, ?_, ?_⟩
  · simp [count_calls_storeT, call_history_storeT, storeMethod]
  · simp [count_calls_storeT, call_history_storeT, storeMethod]
  · simp [count_calls_storeT, call_history_storeT]
  · cases f <;>
      simp [count_calls_storeT, call_history_storeT, storeMethod, List.count_cons]
  · cases ok <;> cases f <;>
      simp [count_calls_storeT, call_history_storeT, count_calls_store,
        call_history_store, storeMethod]

/-- Claim C1 is refuted: in the concrete scenario `store("foo")` with
generated key `"k1"` on a fresh cache, `get` does return the raw bytes
`"foo"` and `get(key, int)` does raise a decode failure, but
`get_str` does not return the text `"foo"`: `Cache.get_str` passes the
raw bytes through Python's `str`, yielding the bytes repr (a `b`-prefixed
quoted rendering), so the claimed conjunction fails. -/
theorem C1_counterexample :
    ¬((count_calls_store true emptyState "k1" (PyData.str "foo") false).1 =
          Except.ok (some "k1") ∧
        cacheGet (count_calls_store true emptyState "k1"
            (PyData.str "foo") false).2 "k1" = some "foo" ∧
        cacheGetStr (count_calls_store true emptyState "k1"
            (PyData.str "foo") false).2 "k1" = Except.ok "foo" ∧
        cacheGetInt (count_calls_store true emptyState "k1"
            (PyData.str "foo") false).2 "k1" =
          Except.error PyErr.valueError) := by
  decide

/-- Claim C1 as amended: `store("foo")` on a fresh cache returns its
generated key `"k1"`; `get("k1")` returns the raw bytes `"foo"`;
`get_str("k1")` returns the display string `str(b"foo") = "b'foo'"` of
the raw bytes (not the decoded text `"foo"`); and `get("k1", int)` fails
with a decode failure (`ValueError`) since `"foo"` is not numeric. -/
theorem C1_getters_on_stored_foo :
    (count_calls_store true emptyState "k1" (PyData.str "foo") false).1 =
        Except.ok (some "k1") ∧
      cacheGet (count_calls_store true emptyState "k1"
          (PyData.str "foo") false).2 "k1" = some "foo" ∧
      cacheGetStr (count_calls_store true emptyState "k1"
          (PyData.str "foo") false).2 "k1" =
        Except.ok (pyBytesRepr "foo") ∧
      cacheGetInt (count_calls_store true emptyState "k1"
          (PyData.str "foo") false).2 "k1" =
        Except.error PyErr.valueError := by
  decide

theorem filter_fail_map_true (fails : List (String × PyData)) :
    ((fails.map (fun c => (c.1, c.2, true))).filter (fun c => !c.2.2)) = [] := by
  rw [List.filter_eq_nil_iff]
  intro a ha
  rcases List.mem_map.mp ha with ⟨c, _, rfl⟩
  simp

/-- Claim C5 is refuted on histories where a failed attempt precedes a
successful one: on a fresh cache, run `store(10)` (whose inner `SET`
raises after the input was recorded) and then `store(20)` (succeeding
with key `"kb"`).  The operation has a nonzero count (2) and `k = 1`
recorded successful call, and replay does print a header and exactly one
call line — but that line pairs the failed first call's input `(10,)`
with the successful call's output `"kb"`, while the call that actually
returned `"kb"` was passed `(20,)`.  So the claimed "args … equal to
what was actually passed … on that call" fails. -/
theorem C5_counterexample :
    replay (some (MethodRef.bound storeQualname ⟨true,
        (runCalls emptyState
          [("ka", PyData.int 10, true), ("kb", PyData.int 20, false)]).2⟩)) =
        Except.ok ["Cache.store was called 2 times:",
          "Cache.store(*(10,)) -> kb"] ∧
      pyTupleRepr (PyData.int 20) = "(20,)" ∧
      ("(10,)" : String) ≠ "(20,)" := by
  decide

/-- Claim C5 as amended: for a history in which no failed attempt
precedes a successful one — `k` successful invocations followed by any
number of failed attempts (each key a fresh UUID, so distinct from the
counter key), at least one attempt in total — replay prints a header
line stating the operation identity and the attempt count, then pairs
the inputs and outputs lists positionally up to the shorter list's
length (silently dropping the failed attempts' unmatched trailing
inputs) and prints exactly `k` lines, the i-th being
`Cache.store(*<args of call i>) -> <key returned by call i>`, in
invocation order. -/
theorem C5_replay_lines (succs fails : List (String × PyData))
    (hk : ∀ c ∈ succs ++ fails, c.1 ≠ storeQualname)
    (hne : succs ++ fails ≠ ([] : List (String × PyData))) :
    replay (some (MethodRef.bound storeQualname ⟨true,
        (runCalls emptyState
          (succs.map (fun c => (c.1, c.2, false)) ++
            fails.map (fun c => (c.1, c.2, true)))).2⟩)) =
      Except.ok
        ((storeQualname ++ " was called " ++
            natToString (succs.length + fails.length) ++ " times:") ::
          succs.map (fun c =>
            storeQualname ++ "(*" ++ pyTupleRepr c.2 ++ ") -> " ++ c.1)) := by
  have hk' : ∀ c ∈ succs.map (fun c => (c.1, c.2, false)) ++
      fails.map (fun c => (c.1, c.2, true)), c.1 ≠ storeQualname := by
    intro c hc
    rcases List.mem_append.mp hc with hcs | hcf
    · rcases List.mem_map.mp hcs with ⟨a, ha, rfl⟩
      exact hk a (List.mem_append.mpr (Or.inl ha))
    · rcases List.mem_map.mp hcf with ⟨a, ha, rfl⟩
      exact hk a (List.mem_append.mpr (Or.inr ha))
  have hcne : succs.map (fun c => (c.1, c.2, false)) ++
      fails.map (fun c => (c.1, c.2, true)) ≠ [] := by
    intro h0
    rcases List.append_eq_nil.mp h0 with ⟨hs, hf⟩
    exact hne (by
      rw [List.map_eq_nil_iff.mp hs, List.map_eq_nil_iff.mp hf]
      rfl)
  have hcount := runCalls_rget_counter emptyState _ hk' hcne
  have h0 : counterNat emptyState = 0 := rfl
  rw [h0, Nat.zero_add] at hcount
  have hlen : (succs.map (fun c => (c.1, c.2, false)) ++
      fails.map (fun c => (c.1, c.2, true))).length =
      succs.length + fails.length := by
    simp
  rw [hlen] at hcount
  have hk0 : succs.length + fails.length ≠ 0 := by
    intro h0'
    apply hne
    have hs : succs.length = 0 := by omega
    have hf : fails.length = 0 := by omega
    rw [List.length_eq_zero.mp hs, List.length_eq_zero.mp hf]
    rfl
  rw [replay_bound_valid storeQualname _ (succs.length + fails.length)
    hcount hk0]
  rw [runCalls_inputs, runCalls_outputs, List.filter_append,
    filter_success_map_false, filter_fail_map_true, List.append_nil]
  have hin : listAt emptyState (inputsKeyOf storeQualname) = [] := rfl
  have hout : listAt emptyState (outputsKeyOf storeQualname) = [] := rfl
  rw [hin, hout, List.nil_append, List.nil_append, List.map_append,
    List.map_map, List.map_map, List.map_map]
  rw [zip_append_left _ _ _ (by simp)]
  rw [List.zip_map', List.map_map]
  rfl

theorem C5_witness :
    (∀ c ∈ ([("ka", PyData.int 10)] ++ [("kb", PyData.str "x")] :
        List (String × PyData)), c.1 ≠ storeQualname) ∧
      (([("ka", PyData.int 10)] ++ [("kb", PyData.str "x")] :
        List (String × PyData)) ≠ []) ∧
      replay (some (MethodRef.bound storeQualname ⟨true,
          (runCalls emptyState
            ([("ka", PyData.int 10)].map (fun c => (c.1, c.2, false)) ++
              [("kb", PyData.str "x")].map (fun c => (c.1, c.2, true)))).2⟩)) =
        Except.ok ["Cache.store was called 2 times:",
          "Cache.store(*(10,)) -> ka"] :=
  ⟨by decide, by decide,
    C5_replay_lines [("ka", PyData.int 10)] [("kb", PyData.str "x")]
      (by decide) (by decide)⟩

end RedisCache
